import Mathlib

/-!
Verification of the DTM-fitting core of `tools/fit-dtm.py`.

The program operates on 2D elevation rasters (numpy float arrays).  We embed a
raster as an explicit height/width pair together with a total data function on
`Nat × Nat` indices; elevations are modelled as rationals (exact arithmetic in
place of floating point).  Cells outside the `h × w` range are irrelevant: every
operation of the program reads only in-range cells when producing in-range
cells, and all claims quantify over in-range indices (or hold for all indices
outright).

Python functions embedded here, with their source names kept:
 * `downsample`          (strided `dtm[::2, ::2]` selection)
 * `upsample`            (four strided slice assignments into `out`)
 * `drape_cloth`         (inverted cloth-draping relaxation)
 * `recursive_fit_dtm`   (multiscale driver)
 * `fit_dtm`             (fit initializer); the Python version mutates its
   `dsm` argument in place, so the primary embedding `fit_dtm_state` returns
   the pair (result, final contents of the caller's dsm buffer); `fit_dtm`
   projects out the result.
-/

/-- A 2D elevation raster: `h × w` grid of rational elevations.  The data
function is total; only indices `r < h`, `c < w` correspond to array cells. -/
structure Raster where
  h : Nat
  w : Nat
  data : Nat → Nat → ℚ

/-- An `h × w` raster with every cell equal to `v` (numpy.full). -/
def constRaster (hh ww : Nat) (v : ℚ) : Raster := ⟨hh, ww, fun _ _ => v⟩

/-- Clamp an integer index into `[0, n-1]` and return it as a `Nat`.  For a
radius-1 window this is exactly scipy's `reflect` boundary mode: index `-1`
maps to `0` and index `n` maps to `n - 1`. -/
def clampI (n : Nat) (i : Int) : Nat := (min (max i 0) ((n : Int) - 1)).toNat

/-- The 3×3 unweighted mean with border replication, i.e. the pointwise value
of `scipy.ndimage.uniform_filter(·, size=3)` (default `reflect` boundary mode,
which for radius 1 coincides with index clamping). -/
def blur3 (hh ww : Nat) (f : Nat → Nat → ℚ) (r c : Nat) : ℚ :=
  (f (clampI hh ((r : Int) - 1)) (clampI ww ((c : Int) - 1)) +
   f (clampI hh ((r : Int) - 1)) (clampI ww ((c : Int))) +
   f (clampI hh ((r : Int) - 1)) (clampI ww ((c : Int) + 1)) +
   f (clampI hh ((r : Int))) (clampI ww ((c : Int) - 1)) +
   f (clampI hh ((r : Int))) (clampI ww ((c : Int))) +
   f (clampI hh ((r : Int))) (clampI ww ((c : Int) + 1)) +
   f (clampI hh ((r : Int) + 1)) (clampI ww ((c : Int) - 1)) +
   f (clampI hh ((r : Int) + 1)) (clampI ww ((c : Int))) +
   f (clampI hh ((r : Int) + 1)) (clampI ww ((c : Int) + 1))) / 9

/-- `ndimage.uniform_filter(x, size=3)` as a raster-to-raster map. -/
def uniformFilter3 (x : Raster) : Raster := ⟨x.h, x.w, blur3 x.h x.w x.data⟩

/-- `dtm += step`: add a scalar to every cell. -/
def rasterAdd (x : Raster) (s : ℚ) : Raster := ⟨x.h, x.w, fun r c => x.data r c + s⟩

/-- `numpy.minimum(x, y, out=x)` in the same-shape case: the pointwise
minimum, carrying `x`'s shape (inside the fitter both arguments always have
identical shape; `minimumOut` below additionally models numpy's broadcasting
admission for mismatched shapes). -/
def rasterMin (x y : Raster) : Raster :=
  ⟨x.h, x.w, fun r c => min (x.data r c) (y.data r c)⟩

/-- One inner iteration of the draping loop: snap below the DSM, then blur. -/
def drapeInner (dsm x : Raster) : Raster := uniformFilter3 (rasterMin x dsm)

/-- One outer iteration of the draping loop: raise by `step`, then 10 inner
iterations. -/
def drapeIter (dsm : Raster) (step : ℚ) (x : Raster) : Raster :=
  (drapeInner dsm)^[10] (rasterAdd x step)

/-- `drape_cloth(dtm, dsm, step, num_iter)`: `num_iter` outer iterations
followed by one final intersection check against the DSM. -/
def drape_cloth (dtm dsm : Raster) (step : ℚ) (numIter : Nat) : Raster :=
  rasterMin ((drapeIter dsm step)^[numIter] dtm) dsm

/-- `downsample(dtm)`: the strided view `dtm[::2, ::2]`; an axis of size `n`
yields `⌈n/2⌉` samples. -/
def downsample (dtm : Raster) : Raster :=
  ⟨(dtm.h + 1) / 2, (dtm.w + 1) / 2, fun r c => dtm.data (2 * r) (2 * c)⟩

/-- Row count of the source slice `dtm[s0, :]`: when `out` has an odd row
count the Python code slices off the last source row (`s0 = :-1`), otherwise
it keeps all rows. -/
def oddRowBound (dtm out : Raster) : Nat :=
  if out.h % 2 = 1 then dtm.h - 1 else dtm.h

/-- Column count of the source slice `dtm[:, s1]` (symmetric to
`oddRowBound`). -/
def oddColBound (dtm out : Raster) : Nat :=
  if out.w % 2 = 1 then dtm.w - 1 else dtm.w

/-- `upsample(dtm, out)`: the four strided slice assignments
`out[::2,::2] = dtm`, `out[1::2,::2] = dtm[s0,:]`, `out[::2,1::2] = dtm[:,s1]`,
`out[1::2,1::2] = dtm[s0,s1]`, where `s0` drops the last source row when
`out` has an odd row count (and `s1` symmetrically for columns).  Each
assignment writes the target cells of the given parity class whose source
index lies in the assigned source's range; the parity classes are disjoint, so
the write order does not matter, and unwritten cells keep `out`'s old value. -/
def upsample (dtm out : Raster) : Raster :=
  let d1 : Nat → Nat → ℚ := fun r c =>
    if r % 2 = 0 ∧ c % 2 = 0 ∧ r / 2 < dtm.h ∧ c / 2 < dtm.w
    then dtm.data (r / 2) (c / 2) else out.data r c
  let d2 : Nat → Nat → ℚ := fun r c =>
    if r % 2 = 1 ∧ c % 2 = 0 ∧ r / 2 < oddRowBound dtm out ∧ c / 2 < dtm.w
    then dtm.data (r / 2) (c / 2) else d1 r c
  let d3 : Nat → Nat → ℚ := fun r c =>
    if r % 2 = 0 ∧ c % 2 = 1 ∧ r / 2 < dtm.h ∧ c / 2 < oddColBound dtm out
    then dtm.data (r / 2) (c / 2) else d2 r c
  let d4 : Nat → Nat → ℚ := fun r c =>
    if r % 2 = 1 ∧ c % 2 = 1 ∧ r / 2 < oddRowBound dtm out ∧ c / 2 < oddColBound dtm out
    then dtm.data (r / 2) (c / 2) else d3 r c
  ⟨out.h, out.w, d4⟩

/-- `recursive_fit_dtm(dtm, dsm, step, level)`: multiscale driver.  While the
smaller dimension exceeds 100, downsample both rasters, recurse one level
deeper, upsample the coarse result into the current `dtm` buffer, and drape
with the exponentially decayed step `step / (2 * 2 ^ (max_level - level))` and
iteration count `max 1 (100 / 2 ^ (max_level - level))`; at the coarsest level
drape with the caller's step and 100 iterations. -/
def recursive_fit_dtm (dtm dsm : Raster) (step : ℚ) (level : Nat) : Raster × Nat :=
  if 100 < min dtm.h dtm.w then
    let rc := recursive_fit_dtm (downsample dtm) (downsample dsm) step (level + 1)
    (drape_cloth (upsample rc.1 dtm) dsm (step / (2 * 2 ^ (rc.2 - level)))
      (max 1 (100 / 2 ^ (rc.2 - level))), rc.2)
  else
    (drape_cloth dtm dsm step 100, level)
termination_by min dtm.h dtm.w
decreasing_by simp [downsample]; omega

/-- The failure mode of `fit_dtm`: `numpy.min` / `numpy.max` over the empty
selection `dsm[dsm != nodata_val]` raises (no valid data in the DSM). -/
inductive FitError where
  | emptyValidData
deriving DecidableEq

/-- The flattened selection `dsm[dsm != nodata_val]` in row-major order. -/
def validVals (dsm : Raster) (nodata : ℚ) : List ℚ :=
  (List.range dsm.h).flatMap fun r =>
    (List.range dsm.w).flatMap fun c =>
      if dsm.data r c = nodata then [] else [dsm.data r c]

/-- `fit_dtm(dsm, nodata_val)` including its in-place effect on the caller's
`dsm` buffer: on success it returns `(result, dsm')` where `dsm'` is the final
contents of the `dsm` argument (the Python code rewrites sentinel cells of
`dsm` to the maximum valid elevation before draping).  When no cell differs
from the sentinel, `numpy.min(valid_data)` raises before `dsm` is touched. -/
def fit_dtm_state (dsm : Raster) (nodata : ℚ) : Except FitError (Raster × Raster) :=
  match validVals dsm nodata with
  | [] => .error FitError.emptyValidData
  | v0 :: rest =>
    let minv := rest.foldl min v0
    let maxv := rest.foldl max v0
    let dsm2 : Raster :=
      ⟨dsm.h, dsm.w, fun r c => if dsm.data r c = nodata then maxv else dsm.data r c⟩
    let step := (maxv - minv) / 100
    let dtm : Raster := ⟨dsm.h, dsm.w, fun _ _ => minv⟩
    .ok ((recursive_fit_dtm dtm dsm2 step 0).1, dsm2)

/-- `fit_dtm`'s return value (the fitted DTM raster). -/
def fit_dtm (dsm : Raster) (nodata : ℚ) : Except FitError Raster :=
  (fit_dtm_state dsm nodata).map Prod.fst

/-- Number of recursive levels the driver descends from a raster whose smaller
dimension is `m`: one per halving until the dimension reaches 100.  (This is
the depth profile of `recursive_fit_dtm`; see `recursive_fit_dtm_snd`.) -/
def fitDepth (m : Nat) : Nat :=
  if 100 < m then fitDepth ((m + 1) / 2) + 1 else 0
termination_by m
decreasing_by omega

/-- All in-range cells of a raster equal `v`. -/
abbrev ConstIR (v : ℚ) (X : Raster) : Prop :=
  ∀ r, r < X.h → ∀ c, c < X.w → X.data r c = v

/-- Step (b) clamp of the spec: every cell to `min(dtm_cell, ceiling_cell)`. -/
def specClamp (dsm x : Raster) : Raster :=
  ⟨x.h, x.w, fun r c => min (x.data r c) (dsm.data r c)⟩

/-- Step (b) smoothing of the spec: replace the raster by its 3×3 box
average, with edge semantics given by the blur parameter `B`. -/
def specSmooth (B : Nat → Nat → (Nat → Nat → ℚ) → Nat → Nat → ℚ) (x : Raster) : Raster :=
  ⟨x.h, x.w, B x.h x.w x.data⟩

/-- One inner repetition of the spec: clamp, then smooth. -/
def specInner (B : Nat → Nat → (Nat → Nat → ℚ) → Nat → Nat → ℚ) (dsm x : Raster) : Raster :=
  specSmooth B (specClamp dsm x)

/-- Step (a) of the spec: add `step` to every cell. -/
def specLift (step : ℚ) (x : Raster) : Raster :=
  ⟨x.h, x.w, fun r c => x.data r c + step⟩

/-- One outer repetition of the spec: lift, then 10 inner repetitions. -/
def specOuter (B : Nat → Nat → (Nat → Nat → ℚ) → Nat → Nat → ℚ)
    (dsm : Raster) (step : ℚ) (x : Raster) : Raster :=
  (specInner B dsm)^[10] (specLift step x)

/-- The relaxation engine exactly as §4.2 of the specification words it
(`n` outer repetitions of lift-then-10×(clamp, smooth), then one final
clamp), parameterized by the edge semantics of the 3×3 box blur. -/
def drapeSpecWith (B : Nat → Nat → (Nat → Nat → ℚ) → Nat → Nat → ℚ)
    (dtm dsm : Raster) (step : ℚ) (n : Nat) : Raster :=
  specClamp dsm ((specOuter B dsm step)^[n] dtm)

/-- The "reduced in-bounds neighborhood" reading of the spec's edge blur: an
unweighted mean over only the distinct in-bounds cells of the 3×3 window. -/
def blurReduced (hh ww : Nat) (f : Nat → Nat → ℚ) (r c : Nat) : ℚ :=
  let rs := ([(r : Int) - 1, (r : Int), (r : Int) + 1]).filterMap
    (fun i => if 0 ≤ i ∧ i < (hh : Int) then some i.toNat else none)
  let cs := ([(c : Int) - 1, (c : Int), (c : Int) + 1]).filterMap
    (fun j => if 0 ≤ j ∧ j < (ww : Int) then some j.toNat else none)
  (rs.flatMap fun i => cs.map fun j => f i j).sum /
    ((rs.length : ℚ) * (cs.length : ℚ))

/-- The "clamped indices" (border replication) edge blur: each of the nine
window indices is clamped into bounds, border samples counted with
multiplicity — scipy's `reflect` mode at radius 1. -/
def blurClamped (hh ww : Nat) (f : Nat → Nat → ℚ) (r c : Nat) : ℚ :=
  let rs := ([(r : Int) - 1, (r : Int), (r : Int) + 1]).map (clampI hh)
  let cs := ([(c : Int) - 1, (c : Int), (c : Int) + 1]).map (clampI ww)
  (rs.flatMap fun i => cs.map fun j => f i j).sum / 9

/-- The 1×2 DSM/DTM `[0, 3]` used to separate the two edge-blur readings. -/
def dtmC5 : Raster := ⟨1, 2, fun _ c => if c = 0 then 0 else 3⟩

/-- numpy's broadcasting admission for `numpy.minimum(x, y, out=x)` on 2D
arrays: each dimension of `y` must equal the corresponding dimension of `x`
or be 1 (an `x` dimension of 1 against a larger `y` dimension is also
rejected, because the result would not fit the output operand `x`). -/
abbrev broadcastOk (x y : Raster) : Prop :=
  (y.h = x.h ∨ y.h = 1) ∧ (y.w = x.w ∨ y.w = 1)

/-- `numpy.minimum(x, y, out=x)` with numpy's shape rules: `none` models the
`ValueError` numpy raises on non-broadcastable operands; on success a
size-1 `y` dimension is broadcast by reading index 0. -/
def minimumOut (x y : Raster) : Option Raster :=
  if broadcastOk x y then
    some ⟨x.h, x.w, fun r c =>
      min (x.data r c) (y.data (if y.h = x.h then r else 0) (if y.w = x.w then c else 0))⟩
  else none

/-- `n`-fold composition of a fallible raster transformation. -/
def bindIter (f : Raster → Option Raster) : Nat → Raster → Option Raster
  | 0, x => some x
  | n + 1, x => (f x).bind (bindIter f n)

/-- One checked inner iteration: `numpy.minimum(dtm, dsm, out=dtm)` then the
(always shape-safe) uniform filter. -/
def drapeInnerChecked (dsm x : Raster) : Option Raster :=
  (minimumOut x dsm).map uniformFilter3

/-- `drape_cloth` with numpy's shape admission at every `numpy.minimum` call:
`num_iter` outer iterations of (add step; 10 × (checked minimum; blur)),
then a final checked minimum. -/
def drape_cloth_checked (dtm dsm : Raster) (step : ℚ) (numIter : Nat) : Option Raster :=
  (bindIter (fun x => bindIter (drapeInnerChecked dsm) 10 (rasterAdd x step)) numIter dtm).bind
    (fun y => minimumOut y dsm)

/-- A 1×2 DSM `[5, 7]` whose second cell is the sentinel (nodata = 7). -/
def dsmC2 : Raster := ⟨1, 2, fun _ c => if c = 0 then 5 else 7⟩

/-! ### Basic index and shape lemmas -/

lemma clampI_lt {n : Nat} (hn : 1 ≤ n) (i : Int) : clampI n i < n := by
  have h1 : min (max i 0) ((n : Int) - 1) ≤ (n : Int) - 1 := min_le_right _ _
  have h2 : (0 : Int) ≤ min (max i 0) ((n : Int) - 1) :=
    le_min (le_max_right _ _) (by omega)
  unfold clampI
  omega

lemma clampI_lt_of_lt {n r : Nat} (hr : r < n) (i : Int) : clampI n i < n :=
  clampI_lt (by omega) i

/-- Iterating a function preserves any invariant its single step preserves. -/
lemma iterate_pres {α : Type} (P : α → Prop) (f : α → α)
    (hf : ∀ x, P x → P (f x)) : ∀ n x, P x → P (f^[n] x) := by
  intro n
  induction n with
  | zero => intro x hx; simpa using hx
  | succ k ih =>
    intro x hx
    rw [Function.iterate_succ_apply]
    exact ih _ (hf _ hx)

lemma drapeIter_shape (dsm : Raster) (step : ℚ) (x : Raster) :
    (drapeIter dsm step x).h = x.h ∧ (drapeIter dsm step x).w = x.w :=
  iterate_pres (fun y : Raster => y.h = x.h ∧ y.w = x.w) (drapeInner dsm)
    (fun _ hy => hy) 10 (rasterAdd x step) ⟨rfl, rfl⟩

lemma drape_cloth_shape (dtm dsm : Raster) (step : ℚ) (n : Nat) :
    (drape_cloth dtm dsm step n).h = dtm.h ∧ (drape_cloth dtm dsm step n).w = dtm.w :=
  iterate_pres (fun y : Raster => y.h = dtm.h ∧ y.w = dtm.w) (drapeIter dsm step)
    (fun y hy => by
      have := drapeIter_shape dsm step y
      exact ⟨this.1.trans hy.1, this.2.trans hy.2⟩)
    n dtm ⟨rfl, rfl⟩

/-- The final intersection check makes every cell of a draped raster lie below
the ceiling. -/
lemma drape_cloth_le (dtm dsm : Raster) (step : ℚ) (n : Nat) (r c : Nat) :
    (drape_cloth dtm dsm step n).data r c ≤ dsm.data r c :=
  min_le_right _ _

/-! ### Unfolding equations for the multiscale driver -/

lemma recursive_fit_dtm_base {dtm dsm : Raster} {step : ℚ} {level : Nat}
    (h : ¬ 100 < min dtm.h dtm.w) :
    recursive_fit_dtm dtm dsm step level = (drape_cloth dtm dsm step 100, level) := by
  unfold recursive_fit_dtm
  rw [if_neg h]

lemma recursive_fit_dtm_rec {dtm dsm : Raster} {step : ℚ} {level : Nat}
    (h : 100 < min dtm.h dtm.w) :
    recursive_fit_dtm dtm dsm step level =
      (drape_cloth (upsample (recursive_fit_dtm (downsample dtm) (downsample dsm) step (level + 1)).1 dtm)
        dsm
        (step / (2 * 2 ^ ((recursive_fit_dtm (downsample dtm) (downsample dsm) step (level + 1)).2 - level)))
        (max 1 (100 / 2 ^ ((recursive_fit_dtm (downsample dtm) (downsample dsm) step (level + 1)).2 - level))),
       (recursive_fit_dtm (downsample dtm) (downsample dsm) step (level + 1)).2) := by
  conv_lhs => unfold recursive_fit_dtm
  rw [if_pos h]

lemma recursive_fit_dtm_level_le (dtm dsm : Raster) (step : ℚ) (level : Nat) :
    level ≤ (recursive_fit_dtm dtm dsm step level).2 := by
  induction dtm, dsm, step, level using recursive_fit_dtm.induct with
  | case1 dtm dsm step level h ih =>
    rw [recursive_fit_dtm_rec h]
    simpa using Nat.le_of_succ_le ih
  | case2 dtm dsm step level h =>
    rw [recursive_fit_dtm_base h]

/-- Every cell of the multiscale driver's result lies below the DSM ceiling:
both branches return a `drape_cloth` against the level's DSM. -/
lemma recursive_fit_dtm_le (dtm dsm : Raster) (step : ℚ) (level : Nat) (r c : Nat) :
    (recursive_fit_dtm dtm dsm step level).1.data r c ≤ dsm.data r c := by
  by_cases h : 100 < min dtm.h dtm.w
  · rw [recursive_fit_dtm_rec h]
    exact drape_cloth_le _ _ _ _ _ _
  · rw [recursive_fit_dtm_base h]
    exact drape_cloth_le _ _ _ _ _ _

/-- The driver's result keeps the shape of the working DTM buffer. -/
lemma recursive_fit_dtm_shape (dtm dsm : Raster) (step : ℚ) (level : Nat) :
    (recursive_fit_dtm dtm dsm step level).1.h = dtm.h ∧
    (recursive_fit_dtm dtm dsm step level).1.w = dtm.w := by
  by_cases h : 100 < min dtm.h dtm.w
  · rw [recursive_fit_dtm_rec h]
    exact drape_cloth_shape _ _ _ _
  · rw [recursive_fit_dtm_base h]
    exact drape_cloth_shape _ _ _ _

/-! ### C1: the returned DTM lies below the gap-filled DSM -/

/-- C1: for every DSM input on which `fit_dtm` succeeds, every cell of the
returned DTM is at most the corresponding cell of the gap-filled DSM (the
second component of `fit_dtm_state`'s result, i.e. the DSM after sentinel
cells are replaced by the maximum valid elevation).  The final intersection
check of `drape_cloth` enforces this pointwise. -/
theorem C1_result_below_gap_filled_dsm (dsm : Raster) (nodata : ℚ)
    (out filled : Raster)
    (h : fit_dtm_state dsm nodata = .ok (out, filled)) :
    ∀ r c : Nat, out.data r c ≤ filled.data r c := by
  intro r c
  unfold fit_dtm_state at h
  split at h
  · exact absurd h (by simp)
  · simp only [Except.ok.injEq, Prod.mk.injEq] at h
    obtain ⟨hout, hfill⟩ := h
    subst hfill
    subst hout
    exact recursive_fit_dtm_le _ _ _ _ _ _

/-! ### C4: recursion depth of the multiscale driver -/

lemma fitDepth_rec {m : Nat} (h : 100 < m) :
    fitDepth m = fitDepth ((m + 1) / 2) + 1 := by
  conv_lhs => unfold fitDepth
  rw [if_pos h]

lemma fitDepth_base {m : Nat} (h : ¬ 100 < m) : fitDepth m = 0 := by
  unfold fitDepth
  rw [if_neg h]

lemma fitDepth_le_iff : ∀ m k : Nat, fitDepth m ≤ k ↔ m ≤ 100 * 2 ^ k := by
  intro m
  induction m using fitDepth.induct with
  | case1 m h ih =>
    intro k
    rw [fitDepth_rec h]
    cases k with
    | zero =>
      simp only [pow_zero, mul_one]
      omega
    | succ k =>
      rw [pow_succ]
      have := ih k
      omega
  | case2 m h =>
    intro k
    rw [fitDepth_base h]
    have hp : 1 ≤ 2 ^ k := Nat.one_le_two_pow
    have : 100 * 1 ≤ 100 * 2 ^ k := Nat.mul_le_mul_left _ hp
    omega

lemma fitDepth_eq_clog (m : Nat) : fitDepth m = Nat.clog 2 ((m + 99) / 100) := by
  apply le_antisymm
  · rw [fitDepth_le_iff]
    have h1 : (m + 99) / 100 ≤ 2 ^ Nat.clog 2 ((m + 99) / 100) :=
      Nat.le_pow_clog (by norm_num) _
    omega
  · rw [← Nat.le_pow_iff_clog_le (by norm_num)]
    have h2 := (fitDepth_le_iff m (fitDepth m)).mp le_rfl
    omega

/-- The second component returned by the driver is the starting level plus the
depth profile of the smaller starting dimension. -/
lemma recursive_fit_dtm_snd (dtm dsm : Raster) (step : ℚ) (level : Nat) :
    (recursive_fit_dtm dtm dsm step level).2 = level + fitDepth (min dtm.h dtm.w) := by
  induction dtm, dsm, step, level using recursive_fit_dtm.induct with
  | case1 dtm dsm step level h ih =>
    rw [recursive_fit_dtm_rec h]
    show (recursive_fit_dtm (downsample dtm) (downsample dsm) step (level + 1)).2 = _
    rw [ih]
    have hmin : min ((dtm.h + 1) / 2) ((dtm.w + 1) / 2) = (min dtm.h dtm.w + 1) / 2 := by
      omega
    show level + 1 + fitDepth (min ((dtm.h + 1) / 2) ((dtm.w + 1) / 2)) = _
    rw [hmin, fitDepth_rec h]
    omega
  | case2 dtm dsm step level h =>
    rw [recursive_fit_dtm_base h]
    show level = level + fitDepth (min dtm.h dtm.w)
    rw [fitDepth_base h]
    omega

/-- C4: for every starting shape `H×W` with `H, W ≥ 1`, the multiscale driver
terminates (it is a total function, well-founded on the smaller dimension) and
the recursion depth it reaches starting at level 0 — the deepest level
returned — equals `⌈log2(min(H,W)/100)⌉`, or 0 when `min(H,W) ≤ 100`.  Since
`⌈log2 x⌉ = ⌈log2 ⌈x⌉⌉` for positive reals (the relevant powers of 2 are
integers), `⌈log2(m/100)⌉` is `Nat.clog 2 ⌈m/100⌉ = Nat.clog 2 ((m + 99) / 100)`,
which also yields 0 for `1 ≤ m ≤ 100`. -/
theorem C4_recursion_depth (dtm dsm : Raster) (step : ℚ)
    (hh : 1 ≤ dtm.h) (hw : 1 ≤ dtm.w) :
    (recursive_fit_dtm dtm dsm step 0).2 =
      Nat.clog 2 ((min dtm.h dtm.w + 99) / 100) := by
  rw [recursive_fit_dtm_snd, fitDepth_eq_clog, zero_add]

/-- Witness for C4 at a concrete 1×1 input. -/
theorem C4_recursion_depth_witness :
    1 ≤ (constRaster 1 1 0).h ∧ 1 ≤ (constRaster 1 1 0).w ∧
    (recursive_fit_dtm (constRaster 1 1 0) (constRaster 1 1 0) 0 0).2 =
      Nat.clog 2 ((min (constRaster 1 1 0).h (constRaster 1 1 0).w + 99) / 100) :=
  ⟨le_refl 1, le_refl 1,
    C4_recursion_depth (constRaster 1 1 0) (constRaster 1 1 0) 0 (le_refl 1) (le_refl 1)⟩

/-! ### C7: the decay schedule of step sizes and iteration counts -/

/-- C7: the coarsest level drapes with exactly 100 outer iterations at the
caller's step; a finer level at distance `k = deepest_level - level` drapes
with step `step / (2 * 2^k)` and iteration count `max 1 (100 / 2^k)` (the
first two conjuncts are the two branches of the driver, with
`level < deepest_level` in the recursive case so the distance is positive);
and for `0 ≤ step` both schedules are non-increasing in the distance `k`,
with the iteration count always at least 1 (and at most the coarsest 100, as
the step never exceeds the caller's step). -/
theorem C7_decay_schedule (dtm dsm : Raster) (step : ℚ) (level : Nat)
    (hs : 0 ≤ step) :
    (¬ 100 < min dtm.h dtm.w →
       recursive_fit_dtm dtm dsm step level = (drape_cloth dtm dsm step 100, level)) ∧
    (100 < min dtm.h dtm.w →
       recursive_fit_dtm dtm dsm step level =
         (drape_cloth
            (upsample (recursive_fit_dtm (downsample dtm) (downsample dsm) step (level + 1)).1 dtm)
            dsm
            (step / (2 * 2 ^ ((recursive_fit_dtm (downsample dtm) (downsample dsm) step (level + 1)).2 - level)))
            (max 1 (100 / 2 ^ ((recursive_fit_dtm (downsample dtm) (downsample dsm) step (level + 1)).2 - level))),
          (recursive_fit_dtm (downsample dtm) (downsample dsm) step (level + 1)).2) ∧
       level < (recursive_fit_dtm dtm dsm step level).2) ∧
    (∀ k k' : Nat, k ≤ k' →
       step / (2 * 2 ^ k') ≤ step / (2 * 2 ^ k) ∧
       max 1 (100 / 2 ^ k') ≤ max 1 (100 / 2 ^ k)) ∧
    (∀ k : Nat, 1 ≤ max 1 (100 / 2 ^ k) ∧ max 1 (100 / 2 ^ k) ≤ 100 ∧
       step / (2 * 2 ^ k) ≤ step) := by
  refine ⟨fun h => recursive_fit_dtm_base h, fun h => ⟨recursive_fit_dtm_rec h, ?_⟩,
    fun k k' hkk' => ⟨?_, ?_⟩, fun k => ⟨le_max_left _ _, ?_, ?_⟩⟩
  · rw [recursive_fit_dtm_rec h]
    have := recursive_fit_dtm_level_le (downsample dtm) (downsample dsm) step (level + 1)
    omega
  · have hp : (2 : ℚ) * 2 ^ k ≤ 2 * 2 ^ k' := by
      have h2 : (2 : ℚ) ^ k ≤ 2 ^ k' := pow_le_pow_right₀ (by norm_num) hkk'
      linarith
    have hpos : (0 : ℚ) < 2 * 2 ^ k := by positivity
    calc step / (2 * 2 ^ k') = step * (2 * 2 ^ k')⁻¹ := div_eq_mul_inv _ _
      _ ≤ step * (2 * 2 ^ k)⁻¹ :=
          mul_le_mul_of_nonneg_left (inv_anti₀ hpos hp) hs
      _ = step / (2 * 2 ^ k) := (div_eq_mul_inv _ _).symm
  · have h2 : (2 : ℕ) ^ k ≤ 2 ^ k' := Nat.pow_le_pow_right (by norm_num) hkk'
    exact max_le_max le_rfl (Nat.div_le_div_left h2 (Nat.pos_pow_of_pos _ (by norm_num)))
  · exact max_le (by norm_num) ((Nat.div_le_self _ _).trans (by norm_num))
  · refine div_le_self hs ?_
    have h1 : (2 : ℚ) ^ 0 ≤ 2 ^ k := pow_le_pow_right₀ (by norm_num) (Nat.zero_le k)
    rw [pow_zero] at h1
    linarith

/-- Witness for C7 at a concrete input with a nonnegative step. -/
theorem C7_decay_schedule_witness :
    (0 : ℚ) ≤ 1 ∧
    (¬ 100 < min (constRaster 1 1 0).h (constRaster 1 1 0).w →
       recursive_fit_dtm (constRaster 1 1 0) (constRaster 1 1 0) 1 0 =
         (drape_cloth (constRaster 1 1 0) (constRaster 1 1 0) 1 100, 0)) :=
  ⟨by norm_num, ((C7_decay_schedule (constRaster 1 1 0) (constRaster 1 1 0) 1 0 (by norm_num)).1)⟩

/-! ### C3: failure exactly on all-sentinel input -/

lemma mem_validVals {dsm : Raster} {nodata x : ℚ} :
    x ∈ validVals dsm nodata ↔
      ∃ r, r < dsm.h ∧ ∃ c, c < dsm.w ∧ dsm.data r c = x ∧ x ≠ nodata := by
  unfold validVals
  constructor
  · intro hx
    rw [List.mem_flatMap] at hx
    obtain ⟨r, hr, hx⟩ := hx
    rw [List.mem_flatMap] at hx
    obtain ⟨c, hc, hx⟩ := hx
    by_cases hne : dsm.data r c = nodata
    · rw [if_pos hne] at hx
      exact absurd hx (List.not_mem_nil _)
    · rw [if_neg hne] at hx
      rw [List.mem_singleton] at hx
      subst hx
      exact ⟨r, List.mem_range.mp hr, c, List.mem_range.mp hc, rfl, hne⟩
  · intro ⟨r, hr, c, hc, hval, hne⟩
    rw [List.mem_flatMap]
    refine ⟨r, List.mem_range.mpr hr, ?_⟩
    rw [List.mem_flatMap]
    refine ⟨c, List.mem_range.mpr hc, ?_⟩
    rw [hval, if_neg (hval ▸ hne)]
    exact List.mem_singleton.mpr rfl

lemma validVals_eq_nil_iff (dsm : Raster) (nodata : ℚ) :
    validVals dsm nodata = [] ↔ ∀ r < dsm.h, ∀ c < dsm.w, dsm.data r c = nodata := by
  rw [List.eq_nil_iff_forall_not_mem]
  constructor
  · intro hnone r hr c hc
    by_contra hne
    exact hnone _ (mem_validVals.mpr ⟨r, hr, c, hc, rfl, hne⟩)
  · intro hall x hx
    obtain ⟨r, hr, c, hc, hval, hne⟩ := mem_validVals.mp hx
    exact hne (hval ▸ hall r hr c hc)

/-- C3: on a DSM whose every cell equals the sentinel, `fit_dtm` fails with
the empty-valid-data error and produces no output at all (in particular the
caller's dsm buffer is untouched, since the state-passing embedding returns no
final buffer); on a DSM with at least one non-sentinel cell this error is not
raised — the fit succeeds (the embedding has no other failure mode).  In the
Python source the failure is the `ValueError` that `numpy.min` raises on the
empty selection `dsm[dsm != nodata_val]`, modelled as `FitError.emptyValidData`. -/
theorem C3_empty_valid_data_error (dsm : Raster) (nodata : ℚ) :
    ((∀ r < dsm.h, ∀ c < dsm.w, dsm.data r c = nodata) →
       fit_dtm_state dsm nodata = .error FitError.emptyValidData) ∧
    ((∃ r, r < dsm.h ∧ ∃ c, c < dsm.w ∧ dsm.data r c ≠ nodata) →
       ∃ p, fit_dtm_state dsm nodata = .ok p) := by
  constructor
  · intro hall
    unfold fit_dtm_state
    rw [(validVals_eq_nil_iff dsm nodata).mpr hall]
  · intro ⟨r, hr, c, hc, hne⟩
    unfold fit_dtm_state
    rcases hv : validVals dsm nodata with _ | ⟨v0, rest⟩
    · exact absurd ((validVals_eq_nil_iff dsm nodata).mp hv r hr c hc) hne
    · exact ⟨_, rfl⟩

/-- Witness for C3: a 1×1 all-sentinel DSM fails; a 1×1 DSM with one valid
cell succeeds. -/
theorem C3_empty_valid_data_error_witness :
    fit_dtm_state (constRaster 1 1 7) 7 = .error FitError.emptyValidData ∧
    ∃ p, fit_dtm_state (constRaster 1 1 5) 7 = .ok p :=
  ⟨(C3_empty_valid_data_error (constRaster 1 1 7) 7).1 (by decide),
   (C3_empty_valid_data_error (constRaster 1 1 5) 7).2 ⟨0, by decide, 0, by decide, by decide⟩⟩

/-! ### C8: shape preservation -/

/-- C8: whenever `fit_dtm` succeeds, the returned raster has exactly the shape
of the input DSM. -/
theorem C8_shape_preservation (dsm : Raster) (nodata : ℚ) (out : Raster)
    (h : fit_dtm dsm nodata = .ok out) :
    out.h = dsm.h ∧ out.w = dsm.w := by
  unfold fit_dtm at h
  rcases hst : fit_dtm_state dsm nodata with e | p
  · rw [hst] at h
    exact absurd h (by simp [Except.map])
  · rw [hst] at h
    simp only [Except.map, Except.ok.injEq] at h
    subst h
    unfold fit_dtm_state at hst
    split at hst
    · exact absurd hst (by simp)
    · simp only [Except.ok.injEq] at hst
      rw [← hst]
      exact recursive_fit_dtm_shape _ _ _ _

/-- Witness for C8 at a concrete 1×1 input. -/
theorem C8_shape_preservation_witness :
    ∃ out, fit_dtm (constRaster 1 1 5) 0 = .ok out ∧
      out.h = (constRaster 1 1 5).h ∧ out.w = (constRaster 1 1 5).w := by
  exact ⟨_, rfl, C8_shape_preservation (constRaster 1 1 5) 0 _ rfl⟩

/-- Witness for C1 at a concrete 1×1 input on which the fit succeeds. -/
theorem C1_result_below_gap_filled_dsm_witness :
    ∃ p : Raster × Raster, fit_dtm_state (constRaster 1 1 5) 0 = .ok p ∧
      p.1.data 0 0 ≤ p.2.data 0 0 :=
  ⟨_, rfl, C1_result_below_gap_filled_dsm (constRaster 1 1 5) 0 _ _ rfl 0 0⟩

/-! ### C6: upsample duplicates each coarse cell into a 2×2 block -/

lemma oddRowBound_le (dtm out : Raster) : oddRowBound dtm out ≤ dtm.h := by
  unfold oddRowBound
  split <;> omega

lemma oddColBound_le (dtm out : Raster) : oddColBound dtm out ≤ dtm.w := by
  unfold oddColBound
  split <;> omega

/-- Every cell of `upsample dtm out` is either a written cell carrying
`dtm[r/2, c/2]` (with the source index in `dtm`'s range) or an untouched cell
of `out`. -/
lemma upsample_data_cases (dtm out : Raster) (r c : Nat) :
    ((upsample dtm out).data r c = dtm.data (r / 2) (c / 2) ∧
      r / 2 < dtm.h ∧ c / 2 < dtm.w) ∨
    (upsample dtm out).data r c = out.data r c := by
  have ha := oddRowBound_le dtm out
  have hb := oddColBound_le dtm out
  unfold upsample
  dsimp only
  split_ifs with h1 h2 h3 h4
  · exact Or.inl ⟨rfl, by omega, by omega⟩
  · exact Or.inl ⟨rfl, by omega, by omega⟩
  · exact Or.inl ⟨rfl, by omega, by omega⟩
  · exact Or.inl ⟨rfl, by omega, by omega⟩
  · exact Or.inr rfl

/-- Under the correct shape relation, every in-range cell of the output is
covered by exactly one of the four strided writes and equals
`dtm[r/2, c/2]`. -/
lemma upsample_covers (dtm out : Raster)
    (hsh : dtm.h = (out.h + 1) / 2) (hsw : dtm.w = (out.w + 1) / 2)
    (r c : Nat) (hr : r < out.h) (hc : c < out.w) :
    (upsample dtm out).data r c = dtm.data (r / 2) (c / 2) := by
  have hrow : r % 2 = 1 → r / 2 < oddRowBound dtm out := by
    intro hp
    simp only [oddRowBound]
    split <;> omega
  have hrow0 : r / 2 < dtm.h := by omega
  have hcol : c % 2 = 1 → c / 2 < oddColBound dtm out := by
    intro hp
    simp only [oddColBound]
    split <;> omega
  have hcol0 : c / 2 < dtm.w := by omega
  unfold upsample
  dsimp only
  split_ifs with h1 h2 h3 h4
  · rfl
  · rfl
  · rfl
  · rfl
  · exfalso
    omega

/-- C6: for a coarse raster and an output buffer of shape `H×W` with the
coarse raster of shape `⌈H/2⌉×⌈W/2⌉`, `upsample` assigns every in-range cell
`out[r,c]` the value `coarse[r/2, c/2]` (so each coarse cell fills its 2×2
block, with the odd-row/odd-column duplication automatically excluded at an
odd final row/column because the sliced source bounds `oddRowBound` /
`oddColBound` cut the last source row/column exactly there), the buffer keeps
its shape, and no write goes out of bounds: any target index admitted by a
write guard (its parity together with its source index lying inside the
assigned slice bound) is an in-range index of `out`. -/
theorem C6_upsample_block_duplication (dtm out : Raster)
    (hsh : dtm.h = (out.h + 1) / 2) (hsw : dtm.w = (out.w + 1) / 2) :
    ((upsample dtm out).h = out.h ∧ (upsample dtm out).w = out.w) ∧
    (∀ r, r < out.h → ∀ c, c < out.w →
      (upsample dtm out).data r c = dtm.data (r / 2) (c / 2)) ∧
    (∀ r : Nat, r % 2 = 0 → r / 2 < dtm.h → r < out.h) ∧
    (∀ r : Nat, r % 2 = 1 → r / 2 < oddRowBound dtm out → r < out.h) ∧
    (∀ c : Nat, c % 2 = 0 → c / 2 < dtm.w → c < out.w) ∧
    (∀ c : Nat, c % 2 = 1 → c / 2 < oddColBound dtm out → c < out.w) := by
  refine ⟨⟨rfl, rfl⟩, fun r hr c hc => upsample_covers dtm out hsh hsw r c hr hc,
    fun r hp hb => by omega,
    fun r hp hb => ?_,
    fun c hp hb => by omega,
    fun c hp hb => ?_⟩
  · simp only [oddRowBound] at hb
    split at hb <;> omega
  · simp only [oddColBound] at hb
    split at hb <;> omega

/-- Witness for C6 at a concrete pair of rasters (1×1 coarse into 1×1 out). -/
theorem C6_upsample_block_duplication_witness :
    ((constRaster 1 1 7).h = ((constRaster 1 1 0).h + 1) / 2) ∧
    (∀ r, r < (constRaster 1 1 0).h → ∀ c, c < (constRaster 1 1 0).w →
      (upsample (constRaster 1 1 7) (constRaster 1 1 0)).data r c =
        (constRaster 1 1 7).data (r / 2) (c / 2)) :=
  ⟨rfl,
   (C6_upsample_block_duplication (constRaster 1 1 7) (constRaster 1 1 0) rfl rfl).2.1⟩

/-! ### C10: a constant DSM is an exact fixed point of the whole fit -/

lemma blur3_const {v : ℚ} {X : Raster} (hh : 1 ≤ X.h) (hw : 1 ≤ X.w)
    (hc : ConstIR v X) : ConstIR v (uniformFilter3 X) := by
  intro r _ c _
  have hread : ∀ i j : Int, X.data (clampI X.h i) (clampI X.w j) = v :=
    fun i j => hc _ (clampI_lt hh i) _ (clampI_lt hw j)
  show blur3 X.h X.w X.data r c = v
  unfold blur3
  rw [hread, hread, hread, hread, hread, hread, hread, hread, hread]
  rw [show v + v + v + v + v + v + v + v + v = 9 * v from by ring]
  exact mul_div_cancel_left₀ v (by norm_num)

lemma rasterMin_const {v : ℚ} {X Y : Raster} (hsh : Y.h = X.h) (hsw : Y.w = X.w)
    (hX : ConstIR v X) (hY : ConstIR v Y) : ConstIR v (rasterMin X Y) := by
  intro r hr c hc
  have hr' : r < X.h := hr
  have hc' : c < X.w := hc
  show min (X.data r c) (Y.data r c) = v
  rw [hX _ hr' _ hc', hY _ (by omega) _ (by omega), min_self]

lemma drapeInner_const {v : ℚ} {dsm X : Raster} (hh : 1 ≤ X.h) (hw : 1 ≤ X.w)
    (hsh : dsm.h = X.h) (hsw : dsm.w = X.w)
    (hdsm : ConstIR v dsm) (hX : ConstIR v X) : ConstIR v (drapeInner dsm X) :=
  @blur3_const v (rasterMin X dsm) hh hw (rasterMin_const hsh hsw hX hdsm)

lemma drape_cloth_const {v : ℚ} {dtm dsm : Raster} (hh : 1 ≤ dtm.h) (hw : 1 ≤ dtm.w)
    (hsh : dsm.h = dtm.h) (hsw : dsm.w = dtm.w)
    (hdtm : ConstIR v dtm) (hdsm : ConstIR v dsm) (n : Nat) :
    ConstIR v (drape_cloth dtm dsm 0 n) := by
  have houter : ∀ y : Raster, (y.h = dtm.h ∧ y.w = dtm.w ∧ ConstIR v y) →
      ((drapeIter dsm 0 y).h = dtm.h ∧ (drapeIter dsm 0 y).w = dtm.w ∧
        ConstIR v (drapeIter dsm 0 y)) := by
    intro y hy
    obtain ⟨e1, e2, hcy⟩ := hy
    have hadd : ConstIR v (rasterAdd y 0) := by
      intro r hr c hc
      show y.data r c + 0 = v
      rw [add_zero]
      exact hcy _ hr _ hc
    have hinner := iterate_pres
      (fun z : Raster => z.h = dtm.h ∧ z.w = dtm.w ∧ ConstIR v z) (drapeInner dsm)
      (fun z hz => by
        obtain ⟨f1, f2, hcz⟩ := hz
        refine ⟨f1, f2, ?_⟩
        exact drapeInner_const (f1 ▸ hh) (f2 ▸ hw) (by rw [hsh, f1]) (by rw [hsw, f2])
          hdsm hcz)
      10 (rasterAdd y 0) ⟨e1, e2, hadd⟩
    exact hinner
  have hiter := iterate_pres
    (fun y : Raster => y.h = dtm.h ∧ y.w = dtm.w ∧ ConstIR v y) (drapeIter dsm 0)
    houter n dtm ⟨rfl, rfl, hdtm⟩
  obtain ⟨e1, e2, hy⟩ := hiter
  intro r hr c hc
  have hr0 : r < ((drapeIter dsm 0)^[n] dtm).h := hr
  have hc0 : c < ((drapeIter dsm 0)^[n] dtm).w := hc
  show min (((drapeIter dsm 0)^[n] dtm).data r c) (dsm.data r c) = v
  rw [hy _ hr0 _ hc0, hdsm _ (by omega) _ (by omega), min_self]

lemma downsample_const {v : ℚ} {X : Raster} (hX : ConstIR v X) :
    ConstIR v (downsample X) := by
  intro r hr c hc
  have hr' : r < (X.h + 1) / 2 := hr
  have hc' : c < (X.w + 1) / 2 := hc
  show X.data (2 * r) (2 * c) = v
  exact hX _ (by omega) _ (by omega)

lemma upsample_const {v : ℚ} {dtm out : Raster}
    (hdtm : ConstIR v dtm) (hout : ConstIR v out) : ConstIR v (upsample dtm out) := by
  intro r hr c hc
  rcases upsample_data_cases dtm out r c with ⟨heq, hb1, hb2⟩ | heq
  · rw [heq]
    exact hdtm _ hb1 _ hb2
  · rw [heq]
    exact hout _ hr _ hc

lemma recursive_fit_dtm_const (v : ℚ) :
    ∀ (N : Nat) (dtm dsm : Raster) (level : Nat), min dtm.h dtm.w ≤ N →
      1 ≤ dtm.h → 1 ≤ dtm.w → dsm.h = dtm.h → dsm.w = dtm.w →
      ConstIR v dtm → ConstIR v dsm →
      ConstIR v (recursive_fit_dtm dtm dsm 0 level).1 := by
  intro N
  induction N with
  | zero =>
    intro dtm dsm level hN hh hw
    omega
  | succ N ih =>
    intro dtm dsm level hN hh hw hsh hsw hdtm hdsm
    by_cases hbig : 100 < min dtm.h dtm.w
    · rw [recursive_fit_dtm_rec hbig]
      show ConstIR v (drape_cloth _ _ _ _)
      rw [zero_div]
      have hcoarse := ih (downsample dtm) (downsample dsm) (level + 1)
        (by simp only [downsample]; omega)
        (by simp only [downsample]; omega)
        (by simp only [downsample]; omega)
        (by simp only [downsample]; rw [hsh])
        (by simp only [downsample]; rw [hsw])
        (downsample_const hdtm) (downsample_const hdsm)
      have hup : ConstIR v
          (upsample (recursive_fit_dtm (downsample dtm) (downsample dsm) 0 (level + 1)).1 dtm) :=
        upsample_const hcoarse hdtm
      exact @drape_cloth_const v
        (upsample (recursive_fit_dtm (downsample dtm) (downsample dsm) 0 (level + 1)).1 dtm)
        dsm hh hw hsh hsw hup hdsm _
    · rw [recursive_fit_dtm_base hbig]
      exact drape_cloth_const hh hw hsh hsw hdtm hdsm _

lemma foldl_min_const (v : ℚ) : ∀ l : List ℚ, (∀ x ∈ l, x = v) → l.foldl min v = v := by
  intro l
  induction l with
  | nil => intro; rfl
  | cons a t ih =>
    intro hall
    rw [List.foldl_cons, hall a (List.mem_cons_self a t), min_self]
    exact ih fun x hx => hall x (List.mem_cons_of_mem _ hx)

lemma foldl_max_const (v : ℚ) : ∀ l : List ℚ, (∀ x ∈ l, x = v) → l.foldl max v = v := by
  intro l
  induction l with
  | nil => intro; rfl
  | cons a t ih =>
    intro hall
    rw [List.foldl_cons, hall a (List.mem_cons_self a t), max_self]
    exact ih fun x hx => hall x (List.mem_cons_of_mem _ hx)

/-- C10: on a DSM whose every cell equals one constant `v` distinct from the
sentinel, `fit_dtm` succeeds and returns a raster with every cell exactly `v`:
the elevation range collapses to `min = max = v`, so the step is `(v-v)/100 = 0`,
the gap-fill touches nothing, the flat initial guess is already `v`, and
adding 0, clamping against the constant ceiling and box-averaging a constant
raster are all exact identities through every level of the recursion. -/
theorem C10_constant_dsm_exact_fixed_point (dsm : Raster) (v nodata : ℚ)
    (hh : 1 ≤ dsm.h) (hw : 1 ≤ dsm.w)
    (hconst : ∀ r, r < dsm.h → ∀ c, c < dsm.w → dsm.data r c = v)
    (hv : v ≠ nodata) :
    ∃ out, fit_dtm dsm nodata = .ok out ∧
      ∀ r, r < dsm.h → ∀ c, c < dsm.w → out.data r c = v := by
  have hmemv : ∀ x ∈ validVals dsm nodata, x = v := by
    intro x hx
    obtain ⟨r, hr, c, hc, hval, _⟩ := mem_validVals.mp hx
    rw [← hval]
    exact hconst r hr c hc
  have hne_nil : validVals dsm nodata ≠ [] := by
    intro hn
    have h0 := (validVals_eq_nil_iff dsm nodata).mp hn 0 hh 0 hw
    rw [hconst 0 hh 0 hw] at h0
    exact hv h0
  rcases hvv : validVals dsm nodata with _ | ⟨v0, rest⟩
  · exact absurd hvv hne_nil
  · have hv0 : v0 = v := hmemv v0 (hvv ▸ List.mem_cons_self v0 rest)
    have hrest : ∀ x ∈ rest, x = v := fun x hx =>
      hmemv x (hvv ▸ List.mem_cons_of_mem _ hx)
    have hmin : rest.foldl min v0 = v := by
      rw [hv0]
      exact foldl_min_const v rest hrest
    have hmax : rest.foldl max v0 = v := by
      rw [hv0]
      exact foldl_max_const v rest hrest
    unfold fit_dtm fit_dtm_state
    rw [hvv]
    refine ⟨_, rfl, ?_⟩
    intro r hr c hc
    have hstep : (rest.foldl max v0 - rest.foldl min v0) / 100 = (0 : ℚ) := by
      rw [hmin, hmax, sub_self, zero_div]
    rw [hstep]
    have hconstd : ConstIR v (⟨dsm.h, dsm.w, fun _ _ => rest.foldl min v0⟩ : Raster) := by
      intro r' _ c' _
      exact hmin
    have hconsts : ConstIR v
        (⟨dsm.h, dsm.w, fun r c => if dsm.data r c = nodata then rest.foldl max v0
          else dsm.data r c⟩ : Raster) := by
      intro r' hr' c' hc'
      show (if dsm.data r' c' = nodata then rest.foldl max v0 else dsm.data r' c') = v
      rw [hconst r' hr' c' hc', if_neg hv]
    have hres := recursive_fit_dtm_const v (min dsm.h dsm.w)
      ⟨dsm.h, dsm.w, fun _ _ => rest.foldl min v0⟩
      ⟨dsm.h, dsm.w, fun r c => if dsm.data r c = nodata then rest.foldl max v0
        else dsm.data r c⟩
      0 le_rfl hh hw rfl rfl hconstd hconsts
    have hsh := recursive_fit_dtm_shape
      (⟨dsm.h, dsm.w, fun _ _ => rest.foldl min v0⟩ : Raster)
      (⟨dsm.h, dsm.w, fun r c => if dsm.data r c = nodata then rest.foldl max v0
        else dsm.data r c⟩ : Raster) 0 0
    exact hres r (by rw [hsh.1]; exact hr) c (by rw [hsh.2]; exact hc)

/-- Witness for C10 at a concrete constant 1×1 DSM. -/
theorem C10_constant_dsm_exact_fixed_point_witness :
    ∃ out, fit_dtm (constRaster 1 1 5) 0 = .ok out ∧
      ∀ r, r < (constRaster 1 1 5).h → ∀ c, c < (constRaster 1 1 5).w →
        out.data r c = 5 :=
  C10_constant_dsm_exact_fixed_point (constRaster 1 1 5) 5 0
    (le_refl 1) (le_refl 1) (fun _ _ _ _ => rfl) (by norm_num)

/-! ### C5: what exactly `drape_cloth` computes -/

lemma blurClamped_eq_blur3 : blurClamped = blur3 := by
  funext hh ww f r c
  show (blurClamped hh ww f r c) = blur3 hh ww f r c
  unfold blurClamped blur3
  simp only [List.map_cons, List.map_nil, List.flatMap_cons, List.flatMap_nil,
    List.sum_append, List.sum_cons, List.sum_nil, List.append_nil]
  ring

/-- C5 (amended): `drape_cloth` computes exactly the spec's loop structure —
`n` repetitions of (add step; 10 × (clamp to the DSM; 3×3 box blur)) followed
by one final clamp — with the blur's edge cells computed by border
replication (window indices clamped into bounds, border values counted with
multiplicity, scipy's `reflect` mode at radius 1), not by an unweighted mean
over the reduced set of distinct in-bounds neighbors. -/
theorem C5_drape_cloth_spec (dtm dsm : Raster) (step : ℚ) (n : Nat) :
    drape_cloth dtm dsm step n = drapeSpecWith blurClamped dtm dsm step n := by
  rw [blurClamped_eq_blur3]
  rfl

lemma blur3_12_00 (f : Nat → Nat → ℚ) : blur3 1 2 f 0 0 = (2 * f 0 0 + f 0 1) / 3 := by
  show (f 0 0 + f 0 0 + f 0 1 + f 0 0 + f 0 0 + f 0 1 + f 0 0 + f 0 0 + f 0 1) / 9 = _
  ring

lemma blur3_12_01 (f : Nat → Nat → ℚ) : blur3 1 2 f 0 1 = (f 0 0 + 2 * f 0 1) / 3 := by
  show (f 0 0 + f 0 1 + f 0 1 + f 0 0 + f 0 1 + f 0 1 + f 0 0 + f 0 1 + f 0 1) / 9 = _
  ring

lemma blurReduced_12_00 (f : Nat → Nat → ℚ) :
    blurReduced 1 2 f 0 0 = (f 0 0 + f 0 1) / 2 := by
  show (f 0 0 + (f 0 1 + 0)) / (((1 : ℕ) : ℚ) * ((2 : ℕ) : ℚ)) = _
  norm_num

lemma blurReduced_12_01 (f : Nat → Nat → ℚ) :
    blurReduced 1 2 f 0 1 = (f 0 0 + f 0 1) / 2 := by
  show (f 0 0 + (f 0 1 + 0)) / (((1 : ℕ) : ℚ) * ((2 : ℕ) : ℚ)) = _
  norm_num

/-- Value of one code-side inner iteration on a 1×2 state `[a, b]` against
the ceiling `dtmC5 = [0, 3]`. -/
lemma drapeInner_dtmC5_vals {a b a' b' : ℚ} {X : Raster}
    (h1 : X.h = 1) (h2 : X.w = 2) (h00 : X.data 0 0 = a) (h01 : X.data 0 1 = b)
    (ha : (2 * min a 0 + min b 3) / 3 = a') (hb : (min a 0 + 2 * min b 3) / 3 = b') :
    (drapeInner dtmC5 X).h = 1 ∧ (drapeInner dtmC5 X).w = 2 ∧
    (drapeInner dtmC5 X).data 0 0 = a' ∧ (drapeInner dtmC5 X).data 0 1 = b' := by
  refine ⟨h1, h2, ?_, ?_⟩
  · show blur3 (rasterMin X dtmC5).h (rasterMin X dtmC5).w (rasterMin X dtmC5).data 0 0 = a'
    have e1 : (rasterMin X dtmC5).h = 1 := h1
    have e2 : (rasterMin X dtmC5).w = 2 := h2
    rw [e1, e2, blur3_12_00]
    show (2 * min (X.data 0 0) (dtmC5.data 0 0) + min (X.data 0 1) (dtmC5.data 0 1)) / 3 = a'
    rw [h00, h01, ← ha]
    norm_num [dtmC5]
  · show blur3 (rasterMin X dtmC5).h (rasterMin X dtmC5).w (rasterMin X dtmC5).data 0 1 = b'
    have e1 : (rasterMin X dtmC5).h = 1 := h1
    have e2 : (rasterMin X dtmC5).w = 2 := h2
    rw [e1, e2, blur3_12_01]
    show (min (X.data 0 0) (dtmC5.data 0 0) + 2 * min (X.data 0 1) (dtmC5.data 0 1)) / 3 = b'
    rw [h00, h01, ← hb]
    norm_num [dtmC5]

/-- Value of one spec-side (reduced-blur) inner iteration on a 1×2 state
`[a, b]` against the ceiling `dtmC5 = [0, 3]`: both cells become the mean of
the two clamped cells. -/
lemma specInner_dtmC5_vals {a b m : ℚ} {X : Raster}
    (h1 : X.h = 1) (h2 : X.w = 2) (h00 : X.data 0 0 = a) (h01 : X.data 0 1 = b)
    (hm : (min a 0 + min b 3) / 2 = m) :
    (specInner blurReduced dtmC5 X).h = 1 ∧ (specInner blurReduced dtmC5 X).w = 2 ∧
    (specInner blurReduced dtmC5 X).data 0 0 = m ∧
    (specInner blurReduced dtmC5 X).data 0 1 = m := by
  refine ⟨h1, h2, ?_, ?_⟩
  · show blurReduced (specClamp dtmC5 X).h (specClamp dtmC5 X).w
      (specClamp dtmC5 X).data 0 0 = m
    have e1 : (specClamp dtmC5 X).h = 1 := h1
    have e2 : (specClamp dtmC5 X).w = 2 := h2
    rw [e1, e2, blurReduced_12_00]
    show (min (X.data 0 0) (dtmC5.data 0 0) + min (X.data 0 1) (dtmC5.data 0 1)) / 2 = m
    rw [h00, h01, ← hm]
    norm_num [dtmC5]
  · show blurReduced (specClamp dtmC5 X).h (specClamp dtmC5 X).w
      (specClamp dtmC5 X).data 0 1 = m
    have e1 : (specClamp dtmC5 X).h = 1 := h1
    have e2 : (specClamp dtmC5 X).w = 2 := h2
    rw [e1, e2, blurReduced_12_01]
    show (min (X.data 0 0) (dtmC5.data 0 0) + min (X.data 0 1) (dtmC5.data 0 1)) / 2 = m
    rw [h00, h01, ← hm]
    norm_num [dtmC5]

/-- C5 counterexample: on the 1×2 input `[0, 3]` (DSM = DTM, step 0, one
outer iteration) the code's relaxation and the spec's reading with a
reduced-neighborhood edge blur produce different values at cell (0,1):
`1024/19683` versus `3/1024`. -/
theorem C5_counterexample :
    (drape_cloth dtmC5 dtmC5 0 1).data 0 1 ≠
      (drapeSpecWith blurReduced dtmC5 dtmC5 0 1).data 0 1 := by
  have v0 : (rasterAdd dtmC5 0).h = 1 ∧ (rasterAdd dtmC5 0).w = 2 ∧
      (rasterAdd dtmC5 0).data 0 0 = 0 ∧ (rasterAdd dtmC5 0).data 0 1 = 3 := by
    refine ⟨rfl, rfl, ?_, ?_⟩
    · show dtmC5.data 0 0 + 0 = 0
      norm_num [dtmC5]
    · show dtmC5.data 0 1 + 0 = 3
      norm_num [dtmC5]
  have s1 := drapeInner_dtmC5_vals v0.1 v0.2.1 v0.2.2.1 v0.2.2.2
    (show (2 * min (0:ℚ) 0 + min 3 3) / 3 = 1 by norm_num [min_def])
    (show (min (0:ℚ) 0 + 2 * min 3 3) / 3 = 2 by norm_num [min_def])
  have s2 := drapeInner_dtmC5_vals s1.1 s1.2.1 s1.2.2.1 s1.2.2.2
    (show (2 * min (1:ℚ) 0 + min 2 3) / 3 = 2/3 by norm_num [min_def])
    (show (min (1:ℚ) 0 + 2 * min 2 3) / 3 = 4/3 by norm_num [min_def])
  have s3 := drapeInner_dtmC5_vals s2.1 s2.2.1 s2.2.2.1 s2.2.2.2
    (show (2 * min (2/3:ℚ) 0 + min (4/3) 3) / 3 = 4/9 by norm_num [min_def])
    (show (min (2/3:ℚ) 0 + 2 * min (4/3) 3) / 3 = 8/9 by norm_num [min_def])
  have s4 := drapeInner_dtmC5_vals s3.1 s3.2.1 s3.2.2.1 s3.2.2.2
    (show (2 * min (4/9:ℚ) 0 + min (8/9) 3) / 3 = 8/27 by norm_num [min_def])
    (show (min (4/9:ℚ) 0 + 2 * min (8/9) 3) / 3 = 16/27 by norm_num [min_def])
  have s5 := drapeInner_dtmC5_vals s4.1 s4.2.1 s4.2.2.1 s4.2.2.2
    (show (2 * min (8/27:ℚ) 0 + min (16/27) 3) / 3 = 16/81 by norm_num [min_def])
    (show (min (8/27:ℚ) 0 + 2 * min (16/27) 3) / 3 = 32/81 by norm_num [min_def])
  have s6 := drapeInner_dtmC5_vals s5.1 s5.2.1 s5.2.2.1 s5.2.2.2
    (show (2 * min (16/81:ℚ) 0 + min (32/81) 3) / 3 = 32/243 by norm_num [min_def])
    (show (min (16/81:ℚ) 0 + 2 * min (32/81) 3) / 3 = 64/243 by norm_num [min_def])
  have s7 := drapeInner_dtmC5_vals s6.1 s6.2.1 s6.2.2.1 s6.2.2.2
    (show (2 * min (32/243:ℚ) 0 + min (64/243) 3) / 3 = 64/729 by norm_num [min_def])
    (show (min (32/243:ℚ) 0 + 2 * min (64/243) 3) / 3 = 128/729 by norm_num [min_def])
  have s8 := drapeInner_dtmC5_vals s7.1 s7.2.1 s7.2.2.1 s7.2.2.2
    (show (2 * min (64/729:ℚ) 0 + min (128/729) 3) / 3 = 128/2187 by norm_num [min_def])
    (show (min (64/729:ℚ) 0 + 2 * min (128/729) 3) / 3 = 256/2187 by norm_num [min_def])
  have s9 := drapeInner_dtmC5_vals s8.1 s8.2.1 s8.2.2.1 s8.2.2.2
    (show (2 * min (128/2187:ℚ) 0 + min (256/2187) 3) / 3 = 256/6561 by norm_num [min_def])
    (show (min (128/2187:ℚ) 0 + 2 * min (256/2187) 3) / 3 = 512/6561 by norm_num [min_def])
  have s10 := drapeInner_dtmC5_vals s9.1 s9.2.1 s9.2.2.1 s9.2.2.2
    (show (2 * min (256/6561:ℚ) 0 + min (512/6561) 3) / 3 = 512/19683 by norm_num [min_def])
    (show (min (256/6561:ℚ) 0 + 2 * min (512/6561) 3) / 3 = 1024/19683 by norm_num [min_def])
  have hfin : (((drapeIter dtmC5 0)^[1]) dtmC5).data 0 1 = 1024/19683 := s10.2.2.2
  have hcode : (drape_cloth dtmC5 dtmC5 0 1).data 0 1 = 1024/19683 := by
    show min ((((drapeIter dtmC5 0)^[1]) dtmC5).data 0 1) (dtmC5.data 0 1) = 1024/19683
    rw [hfin]
    norm_num [dtmC5, min_def]
  have w0 : (specLift 0 dtmC5).h = 1 ∧ (specLift 0 dtmC5).w = 2 ∧
      (specLift 0 dtmC5).data 0 0 = 0 ∧ (specLift 0 dtmC5).data 0 1 = 3 := by
    refine ⟨rfl, rfl, ?_, ?_⟩
    · show dtmC5.data 0 0 + 0 = 0
      norm_num [dtmC5]
    · show dtmC5.data 0 1 + 0 = 3
      norm_num [dtmC5]
  have t1 := specInner_dtmC5_vals w0.1 w0.2.1 w0.2.2.1 w0.2.2.2
    (show (min (0:ℚ) 0 + min 3 3) / 2 = 3/2 by norm_num [min_def])
  have t2 := specInner_dtmC5_vals t1.1 t1.2.1 t1.2.2.1 t1.2.2.2
    (show (min (3/2:ℚ) 0 + min (3/2) 3) / 2 = 3/4 by norm_num [min_def])
  have t3 := specInner_dtmC5_vals t2.1 t2.2.1 t2.2.2.1 t2.2.2.2
    (show (min (3/4:ℚ) 0 + min (3/4) 3) / 2 = 3/8 by norm_num [min_def])
  have t4 := specInner_dtmC5_vals t3.1 t3.2.1 t3.2.2.1 t3.2.2.2
    (show (min (3/8:ℚ) 0 + min (3/8) 3) / 2 = 3/16 by norm_num [min_def])
  have t5 := specInner_dtmC5_vals t4.1 t4.2.1 t4.2.2.1 t4.2.2.2
    (show (min (3/16:ℚ) 0 + min (3/16) 3) / 2 = 3/32 by norm_num [min_def])
  have t6 := specInner_dtmC5_vals t5.1 t5.2.1 t5.2.2.1 t5.2.2.2
    (show (min (3/32:ℚ) 0 + min (3/32) 3) / 2 = 3/64 by norm_num [min_def])
  have t7 := specInner_dtmC5_vals t6.1 t6.2.1 t6.2.2.1 t6.2.2.2
    (show (min (3/64:ℚ) 0 + min (3/64) 3) / 2 = 3/128 by norm_num [min_def])
  have t8 := specInner_dtmC5_vals t7.1 t7.2.1 t7.2.2.1 t7.2.2.2
    (show (min (3/128:ℚ) 0 + min (3/128) 3) / 2 = 3/256 by norm_num [min_def])
  have t9 := specInner_dtmC5_vals t8.1 t8.2.1 t8.2.2.1 t8.2.2.2
    (show (min (3/256:ℚ) 0 + min (3/256) 3) / 2 = 3/512 by norm_num [min_def])
  have t10 := specInner_dtmC5_vals t9.1 t9.2.1 t9.2.2.1 t9.2.2.2
    (show (min (3/512:ℚ) 0 + min (3/512) 3) / 2 = 3/1024 by norm_num [min_def])
  have hfin2 : (((specOuter blurReduced dtmC5 0)^[1]) dtmC5).data 0 1 = 3/1024 :=
    t10.2.2.2
  have hspec : (drapeSpecWith blurReduced dtmC5 dtmC5 0 1).data 0 1 = 3/1024 := by
    show min ((((specOuter blurReduced dtmC5 0)^[1]) dtmC5).data 0 1) (dtmC5.data 0 1) = 3/1024
    rw [hfin2]
    norm_num [dtmC5, min_def]
  rw [hcode, hspec]
  norm_num

/-! ### C9: shape handling of the relaxation engine (numpy broadcasting) -/

/-- On identically shaped operands the checked minimum is the plain pointwise
minimum. -/
lemma minimumOut_eq_of_shape {x y : Raster} (hsh : y.h = x.h) (hsw : y.w = x.w) :
    minimumOut x y = some (rasterMin x y) := by
  unfold minimumOut rasterMin
  rw [if_pos ⟨Or.inl hsh, Or.inl hsw⟩]
  simp only [if_pos hsh, if_pos hsw]

lemma bindIter_some_of {f : Raster → Option Raster} {H W : Nat}
    (hf : ∀ x : Raster, x.h = H → x.w = W → ∃ y, f x = some y ∧ y.h = H ∧ y.w = W) :
    ∀ (n : Nat) (x : Raster), x.h = H → x.w = W →
      ∃ y, bindIter f n x = some y ∧ y.h = H ∧ y.w = W := by
  intro n
  induction n with
  | zero => exact fun x h1 h2 => ⟨x, rfl, h1, h2⟩
  | succ k ih =>
    intro x h1 h2
    obtain ⟨y, hy, hy1, hy2⟩ := hf x h1 h2
    obtain ⟨z, hz, hz1, hz2⟩ := ih y hy1 hy2
    refine ⟨z, ?_, hz1, hz2⟩
    show (f x).bind (bindIter f k) = some z
    rw [hy, Option.some_bind]
    exact hz

lemma drape_cloth_checked_none {dtm dsm : Raster} {step : ℚ} (n : Nat)
    (hbad : ¬ broadcastOk dtm dsm) : drape_cloth_checked dtm dsm step n = none := by
  unfold drape_cloth_checked
  cases n with
  | zero =>
    show (Option.bind (some dtm) fun y => minimumOut y dsm) = none
    rw [Option.some_bind]
    unfold minimumOut
    exact if_neg hbad
  | succ k =>
    have h1 : minimumOut (rasterAdd dtm step) dsm = none := by
      unfold minimumOut
      exact if_neg hbad
    show Option.bind
      ((Option.bind (drapeInnerChecked dsm (rasterAdd dtm step))
        (bindIter (drapeInnerChecked dsm) 9)).bind
          (bindIter (fun x => bindIter (drapeInnerChecked dsm) 10 (rasterAdd x step)) k))
      (fun y => minimumOut y dsm) = none
    rw [show drapeInnerChecked dsm (rasterAdd dtm step) = none from by
      unfold drapeInnerChecked
      rw [h1]
      rfl]
    rfl

lemma drape_cloth_checked_some {dtm dsm : Raster} {step : ℚ} (n : Nat)
    (hok : broadcastOk dtm dsm) : (drape_cloth_checked dtm dsm step n).isSome = true := by
  obtain ⟨ho1, ho2⟩ := hok
  have hmin : ∀ x : Raster, x.h = dtm.h → x.w = dtm.w →
      ∃ y, minimumOut x dsm = some y ∧ y.h = dtm.h ∧ y.w = dtm.w := by
    intro x h1 h2
    refine ⟨⟨x.h, x.w, fun r c =>
      min (x.data r c)
        (dsm.data (if dsm.h = x.h then r else 0) (if dsm.w = x.w then c else 0))⟩,
      ?_, h1, h2⟩
    unfold minimumOut
    rw [if_pos ⟨by rw [h1]; exact ho1, by rw [h2]; exact ho2⟩]
  have hinner : ∀ x : Raster, x.h = dtm.h → x.w = dtm.w →
      ∃ y, drapeInnerChecked dsm x = some y ∧ y.h = dtm.h ∧ y.w = dtm.w := by
    intro x h1 h2
    obtain ⟨y, hy, hy1, hy2⟩ := hmin x h1 h2
    refine ⟨uniformFilter3 y, ?_, hy1, hy2⟩
    unfold drapeInnerChecked
    rw [hy]
    rfl
  have houter : ∀ x : Raster, x.h = dtm.h → x.w = dtm.w →
      ∃ y, bindIter (drapeInnerChecked dsm) 10 (rasterAdd x step) = some y ∧
        y.h = dtm.h ∧ y.w = dtm.w :=
    fun x h1 h2 => bindIter_some_of hinner 10 (rasterAdd x step) h1 h2
  obtain ⟨y, hy, hy1, hy2⟩ := bindIter_some_of houter n dtm rfl rfl
  obtain ⟨z, hz, _, _⟩ := hmin y hy1 hy2
  unfold drape_cloth_checked
  rw [hy, Option.some_bind, hz]
  rfl

/-- C9 (amended): the code performs no defensive shape validation and raises
no shape-specific error; the relaxation engine completes without any error
exactly when numpy's broadcasting admits the pair, i.e. when each DSM
dimension equals the DTM's or equals 1 — so DSM/DTM pairs of differing but
broadcast-compatible shapes are accepted silently, and only
broadcast-incompatible pairs abort (with numpy's generic broadcasting
`ValueError`, modelled as `none`). -/
theorem C9_no_shape_validation (dtm dsm : Raster) (step : ℚ) (n : Nat) :
    (drape_cloth_checked dtm dsm step n).isSome = true ↔
      ((dsm.h = dtm.h ∨ dsm.h = 1) ∧ (dsm.w = dtm.w ∨ dsm.w = 1)) := by
  constructor
  · intro hsome
    by_contra hbad
    rw [drape_cloth_checked_none n hbad] at hsome
    exact absurd hsome (by simp)
  · exact drape_cloth_checked_some n

/-- C9 counterexample: a 2×2 DTM with a 1×2 DSM have differing shapes, yet
the relaxation engine completes without raising any error (numpy silently
broadcasts the DSM row), refuting "every DSM/DTM pair of differing shapes
raises a ShapeMismatchError". -/
theorem C9_counterexample :
    (constRaster 1 2 3).h ≠ (constRaster 2 2 5).h ∧
    (drape_cloth_checked (constRaster 2 2 5) (constRaster 1 2 3) 1 0).isSome = true := by
  constructor
  · decide
  · rfl

/-! ### C2: fit_dtm's effect on the caller's DSM buffer -/

/-- C2 counterexample: `fit_dtm` succeeds on `dsmC2` with sentinel 7, yet the
final contents of the caller's dsm buffer (the second component of
`fit_dtm_state`'s result) differ from the input at the sentinel cell (0,1):
the in-place assignment `dsm[dsm == nodata_val] = maxv` rewrote it to 5.  So
`fit_dtm` is not a pure function of its arguments. -/
theorem C2_counterexample :
    ∃ p : Raster × Raster, fit_dtm_state dsmC2 7 = .ok p ∧
      p.2.data 0 1 ≠ dsmC2.data 0 1 := by
  refine ⟨_, rfl, ?_⟩
  decide

/-- C2 (amended): `fit_dtm` returns a fresh result raster but mutates the
caller's DSM buffer in place: its shape and every non-sentinel cell are left
unchanged, while every sentinel cell is overwritten with the maximum valid
elevation (the fold of `max` over the non-sentinel cells).  When the DSM
contains no sentinel cell the buffer is therefore unchanged. -/
theorem C2_fit_dtm_mutates_dsm (dsm : Raster) (nodata : ℚ) (out dsm' : Raster)
    (h : fit_dtm_state dsm nodata = .ok (out, dsm')) :
    dsm'.h = dsm.h ∧ dsm'.w = dsm.w ∧
    (∀ r c : Nat, dsm.data r c ≠ nodata → dsm'.data r c = dsm.data r c) ∧
    ∃ v0 rest, validVals dsm nodata = v0 :: rest ∧
      ∀ r c : Nat, dsm.data r c = nodata → dsm'.data r c = rest.foldl max v0 := by
  unfold fit_dtm_state at h
  split at h
  · exact absurd h (by simp)
  · rename_i v0 rest heq
    simp only [Except.ok.injEq, Prod.mk.injEq] at h
    obtain ⟨-, hfill⟩ := h
    subst hfill
    refine ⟨rfl, rfl, ?_, v0, rest, heq, ?_⟩
    · intro r c hne
      exact if_neg hne
    · intro r c hye
      exact if_pos hye

/-- Witness for the amended C2 at the concrete input `dsmC2`: the
non-sentinel cell (0,0) is preserved. -/
theorem C2_fit_dtm_mutates_dsm_witness :
    ∃ p : Raster × Raster, fit_dtm_state dsmC2 7 = .ok p ∧
      p.2.data 0 0 = dsmC2.data 0 0 := by
  refine ⟨_, rfl, ?_⟩
  exact (C2_fit_dtm_mutates_dsm dsmC2 7 _ _ rfl).2.2.1 0 0 (by decide)
